import Mathlib

/-!
Shallow embedding of the resource-ownership core of the SVSM kernel:
the HV doorbell page (sev/hv_doorbell.rs), the reentrancy-safe per-CPU
cell (utils/percpu_cell.rs), the guest memory access capability
(mm/access/guest.rs), the typed page box (mm/pagebox.rs) and the VMSA
page (sev/vmsa.rs).  Machine integers are modelled as Nat with explicit
wrapping where it matters; atomics are modelled as explicit state since
all the verified code paths are single-threaded state transformers.
-/

namespace Svsm

/-- Page size constant (types.rs): 4 KiB. -/
def PAGE_SIZE : Nat := 4096

/-- Large page size constant (types.rs): 2 MiB. -/
def PAGE_SIZE_2M : Nat := 2 * 1024 * 1024

/-- Errors related to reentrancy (utils/percpu_cell.rs). -/
inductive ReentrancyError
  | ReentrantRead
  | ReentrantWrite
deriving DecidableEq

/-- Allocation errors (mm/alloc.rs interface); only the variant used by
the embedded code is modelled. -/
inductive AllocError
  | OutOfMemory
deriving DecidableEq

/-- Kernel error type (error.rs interface); only the variants used by the
embedded code are modelled. -/
inductive SvsmError
  | Alloc (e : AllocError)
  | Mem
  | Reentrancy (e : ReentrancyError)
deriving DecidableEq

/-! ## HV doorbell page (sev/hv_doorbell.rs) -/

namespace HVDoorbellFlags

/-- `HVDoorbellFlags::new()`: the all-clear flags byte. -/
def new : Nat := 0

/-- Bit 0 of the flags byte (bitfield field `nmi_pending`). -/
def nmi_pending (f : Nat) : Bool := f.testBit 0

/-- Bit 1 of the flags byte (bitfield field `mc_pending`). -/
def mc_pending (f : Nat) : Bool := f.testBit 1

/-- Bit 7 of the flags byte (bitfield field `no_further_signal`). -/
def no_further_signal (f : Nat) : Bool := f.testBit 7

/-- Bitfield setter for bit 0 (`with_nmi_pending`). -/
def with_nmi_pending (f : Nat) (b : Bool) : Nat :=
  if b then f ||| 1 else f &&& (255 ^^^ 1)

/-- Bitfield setter for bit 7 (`with_no_further_signal`). -/
def with_no_further_signal (f : Nat) (b : Bool) : Nat :=
  if b then f ||| 128 else f &&& (255 ^^^ 128)

end HVDoorbellFlags

/-- The mask built at the top of `process_pending_events`:
`HVDoorbellFlags::new().with_no_further_signal(true).with_nmi_pending(true)`. -/
def no_further_signal_mask : Nat :=
  HVDoorbellFlags.with_nmi_pending
    (HVDoorbellFlags.with_no_further_signal HVDoorbellFlags.new true) true

/-- The value of the doorbell `flags` byte after
`self.flags.fetch_and(!no_further_signal_mask)`.  The byte is a `u8`,
so the complement and the result are taken modulo 256. -/
def flags_fetch_and (flags : Nat) : Nat :=
  (flags % 256) &&& (no_further_signal_mask ^^^ 255)

/-- The drain loop of `process_pending_events`: `vector.swap(0)` results
are consumed until one reads zero; every nonzero value is dispatched to
`common_isr_handler` in order.  The input list models the successive
values returned by the atomic swap; once it is exhausted the swap keeps
returning zero. -/
def drain_vectors : List Nat → List Nat
  | [] => []
  | v :: rest => if v = 0 then [] else v :: drain_vectors rest

/-- `HVDoorbell::process_pending_events`.  `flags` is the value held in
the doorbell flags byte when the fetch-and executes; `swaps` models the
successive results of `self.vector.swap(0, Relaxed)`.  The `Except.error`
outcome models the panic taken when a machine check is pending; the
`Except.ok` outcome carries the flags byte left in the doorbell and the
list of vectors dispatched to `common_isr_handler`, in order. -/
def process_pending_events (flags : Nat) (swaps : List Nat) :
    Except Unit (Nat × List Nat) :=
  let old := flags % 256
  if HVDoorbellFlags.mc_pending old then Except.error ()
  else Except.ok (flags_fetch_and flags, drain_vectors swaps)

/-! ## Reentrancy-safe per-CPU cell (utils/percpu_cell.rs)

The cell is modelled by its `AtomicIsize` borrow counter together with
two ghost counters tracking the live `PerCpuRef` and `PerCpuRefMut`
handles (splits of a write borrow counted separately).  The code runs
single-core, so every operation is a plain state transformer. -/

structure CellState where
  borrow : Int
  reads : Nat
  writes : Nat
deriving DecidableEq

/-- The freshly constructed cell: `PerCpuCell::new` starts with a zero
borrow counter and no live handles. -/
def initState : CellState := { borrow := 0, reads := 0, writes := 0 }

/-- `PerCpuCell::try_borrow` via `PerCpuRef::new`: fails when the counter
is negative (a writer exists), otherwise increments the counter and
hands out one more read handle.  The failure is mapped to
`SvsmError::Reentrancy(ReentrantRead)` by `try_borrow`. -/
def try_borrow (s : CellState) : Except SvsmError CellState :=
  if s.borrow < 0 then Except.error (SvsmError.Reentrancy ReentrancyError.ReentrantRead)
  else Except.ok { s with borrow := s.borrow + 1, reads := s.reads + 1 }

/-- `PerCpuCell::try_borrow_mut` via `PerCpuRefMut::new`: fails when the
counter is nonzero (any reader or writer exists), otherwise decrements
the counter and hands out one write handle.  The failure is mapped to
`SvsmError::Reentrancy(ReentrantWrite)`. -/
def try_borrow_mut (s : CellState) : Except SvsmError CellState :=
  if s.borrow ≠ 0 then Except.error (SvsmError.Reentrancy ReentrancyError.ReentrantWrite)
  else Except.ok { s with borrow := s.borrow - 1, writes := s.writes + 1 }

/-- `impl Drop for PerCpuRef`: `fetch_sub(1)`; one read handle dies. -/
def drop_read (s : CellState) : CellState :=
  { s with borrow := s.borrow - 1, reads := s.reads - 1 }

/-- `impl Drop for PerCpuRefMut`: `fetch_add(1)`; one write handle dies. -/
def drop_write (s : CellState) : CellState :=
  { s with borrow := s.borrow + 1, writes := s.writes - 1 }

/-- `PerCpuRefMut::map_split`: `fetch_sub(1)`; the consumed write handle
is replaced by two write handles over disjoint sub-fields, so the number
of live write handles grows by one. -/
def map_split (s : CellState) : CellState :=
  { s with borrow := s.borrow - 1, writes := s.writes + 1 }

/-- The cell operations a client can perform.  `map` and `filter_map` on
either kind of handle consume one handle and produce one handle without
touching the counter (the original is wrapped in `ManuallyDrop`), so
they are counter-neutral. -/
inductive Op
  | tryBorrow
  | tryBorrowMut
  | dropRead
  | dropWrite
  | mapRead
  | mapWrite
  | filterMapRead
  | filterMapWrite
  | mapSplit
deriving DecidableEq

/-- One step of the cell state machine.  A failed borrow attempt leaves
the state untouched (the code only performs a load on that path); drop
and split operations require a live handle of the right kind to exist,
otherwise they cannot be performed and are no-ops. -/
def step (s : CellState) : Op → CellState
  | Op.tryBorrow =>
      match try_borrow s with
      | Except.ok t => t
      | Except.error _ => s
  | Op.tryBorrowMut =>
      match try_borrow_mut s with
      | Except.ok t => t
      | Except.error _ => s
  | Op.dropRead => if s.reads = 0 then s else drop_read s
  | Op.dropWrite => if s.writes = 0 then s else drop_write s
  | Op.mapRead => s
  | Op.mapWrite => s
  | Op.filterMapRead => s
  | Op.filterMapWrite => s
  | Op.mapSplit => if s.writes = 0 then s else map_split s

/-- Run a sequence of cell operations from the initial state. -/
def run (ops : List Op) : CellState := List.foldl step initState ops

/-- The counter invariant: either there is no writer and the counter
equals the number of live read handles, or there is no reader and the
counter is minus the number of live write handles. -/
def Inv (s : CellState) : Prop :=
  (s.writes = 0 ∧ s.borrow = (s.reads : Int)) ∨
  (s.reads = 0 ∧ s.borrow = -(s.writes : Int))

/-! ### Panicking convenience API (`borrow`, `borrow_mut`, `replace`, `get`) -/

/-- Outcome of an operation that may panic instead of returning. -/
inductive PanicOr (α : Type)
  | panicked
  | ok (a : α)

/-- `PerCpuCell::borrow`: `self.try_borrow().unwrap()`. -/
def borrow (s : CellState) : PanicOr CellState :=
  match try_borrow s with
  | Except.ok t => PanicOr.ok t
  | Except.error _ => PanicOr.panicked

/-- `PerCpuCell::borrow_mut`: `self.try_borrow_mut().unwrap()`. -/
def borrow_mut (s : CellState) : PanicOr CellState :=
  match try_borrow_mut s with
  | Except.ok t => PanicOr.ok t
  | Except.error _ => PanicOr.panicked

/-- A cell together with its value, for the operations that read or
swap the contents. -/
structure CellWithValue (α : Type) where
  state : CellState
  val : α

/-- `PerCpuCell::replace`: takes a write guard via `borrow_mut` (panics
on failure), swaps the value, and drops the guard, returning the old
value with the counter back where it started. -/
def replace {α : Type} (c : CellWithValue α) (x : α) :
    PanicOr (CellWithValue α × α) :=
  match try_borrow_mut c.state with
  | Except.error _ => PanicOr.panicked
  | Except.ok t => PanicOr.ok ({ state := drop_write t, val := x }, c.val)

/-- `PerCpuCell::get`: `*self.borrow()`; takes a read guard (panics on
failure), copies the value out and drops the guard. -/
def get {α : Type} (c : CellWithValue α) : PanicOr α :=
  match try_borrow c.state with
  | Except.error _ => PanicOr.panicked
  | Except.ok _ => PanicOr.ok c.val

/-! ### Two-field split scenario for `map_split` -/

/-- A two-field value held in a cell (the `Foo { bar, baz }` shape used
used by the split test in the source). -/
structure Pair where
  bar : Nat
  baz : Nat
deriving DecidableEq

/-- A cell holding a `Pair` together with its borrow state. -/
structure SplitCell where
  value : Pair
  state : CellState
deriving DecidableEq

/-- A mutation performed through one of the two handles produced by
`map_split`: the first handle reaches only `bar`, the second only
`baz`. -/
inductive SplitWrite
  | writeBar (v : Nat)
  | writeBaz (v : Nat)
deriving DecidableEq

/-- Whether a split mutation goes through the `bar` handle. -/
def SplitWrite.isBar : SplitWrite → Bool
  | SplitWrite.writeBar _ => true
  | SplitWrite.writeBaz _ => false

/-- Whether a split mutation goes through the `baz` handle. -/
def SplitWrite.isBaz : SplitWrite → Bool
  | SplitWrite.writeBar _ => false
  | SplitWrite.writeBaz _ => true

/-- Apply one mutation through a split handle: each handle is a plain
mutable reference to its own field, so it updates that field and leaves
the counter alone. -/
def apply_split_write (c : SplitCell) : SplitWrite → SplitCell
  | SplitWrite.writeBar v => { c with value := { c.value with bar := v } }
  | SplitWrite.writeBaz v => { c with value := { c.value with baz := v } }

/-- Apply an arbitrary interleaving of mutations through the two split
handles. -/
def apply_split_writes (c : SplitCell) (ws : List SplitWrite) : SplitCell :=
  List.foldl apply_split_write c ws

/-- The value of `bar` after an interleaving of split mutations: the
last value written through the `bar` handle (writes through the `baz`
handle are irrelevant). -/
def last_bar (b : Nat) : List SplitWrite → Nat
  | [] => b
  | SplitWrite.writeBar v :: ws => last_bar v ws
  | SplitWrite.writeBaz _ :: ws => last_bar b ws

/-- The value of `baz` after an interleaving of split mutations. -/
def last_baz (z : Nat) : List SplitWrite → Nat
  | [] => z
  | SplitWrite.writeBar _ :: ws => last_baz z ws
  | SplitWrite.writeBaz v :: ws => last_baz v ws

/-! ## Guest memory access capability (mm/access/guest.rs) -/

/-- A mapping of guest physical memory, identified by its validated
physical address and element count. -/
structure GuestMapping where
  paddr : Nat
  len : Nat
deriving DecidableEq

/-- Modelled from the spec: `valid_phys_region` (mm/memory.rs, not under
src/) decides whether the physical byte range `[start, start + len)`
lies entirely within guest-owned memory as known to the kernel memory
map, here abstracted as the predicate `guest_owned` on physical
addresses. -/
def valid_phys_region (guest_owned : Nat → Bool) (start len : Nat) : Bool :=
  (List.range len).all fun i => guest_owned (start + i)

/-- `Mapping::<Guest, T>::check_region`: builds the physical region of
`len` elements of `size` bytes starting at `paddr` (`phys_region`,
modelled from the spec as the byte range of `len * size` bytes) and
fails with `SvsmError::Mem` unless `valid_phys_region` accepts it. -/
def check_region (guest_owned : Nat → Bool) (size paddr len : Nat) :
    Except SvsmError Unit :=
  if valid_phys_region guest_owned paddr (len * size) then Except.ok ()
  else Except.error SvsmError.Mem

/-- `Mapping::<Guest, [T]>::map`: runs `check_region` first and only then
establishes the mapping.  `map_inner` (mm/access/mod.rs, not under src/)
is modelled from the spec as an arbitrary outcome parameter standing for
the virtual-mapping machinery, which is consulted only after the region
check passes. -/
def Mapping.map_slice (guest_owned : Nat → Bool)
    (map_inner : Except SvsmError GuestMapping) (size paddr len : Nat) :
    Except SvsmError GuestMapping :=
  match check_region guest_owned size paddr len with
  | Except.error e => Except.error e
  | Except.ok _ => map_inner

/-- `Mapping::<Guest, T>::map`: `check_region(paddr, 1)` followed by
`map_inner(paddr)`. -/
def Mapping.map (guest_owned : Nat → Bool)
    (map_inner : Except SvsmError GuestMapping) (size paddr : Nat) :
    Except SvsmError GuestMapping :=
  Mapping.map_slice guest_owned map_inner size paddr 1

/-- `<Guest as WriteAccess>::write_bytes`: the body is `unimplemented!()`,
so every invocation panics before touching memory.  `_mem` is the guest
memory it would have written to; a `PanicOr.ok` outcome would carry the
updated memory and the copy result. -/
def Guest.write_bytes (_mem : Nat → Nat) (_dst _count _val : Nat) :
    PanicOr ((Nat → Nat) × Except SvsmError Unit) :=
  PanicOr.panicked

/-! ## Typed page box (mm/pagebox.rs) -/

/-- Modelled from the spec: `get_order` (mm/alloc.rs, not under src/)
computes the minimal allocation order covering `size` bytes, i.e. the
least `o` with `size ≤ PAGE_SIZE * 2 ^ o`.  `order_search` performs the
bounded search; a fuel of `size` always suffices. -/
def order_search (size : Nat) : Nat → Nat → Nat
  | 0, o => o
  | fuel + 1, o =>
      if size ≤ PAGE_SIZE * 2 ^ o then o else order_search size fuel (o + 1)

/-- Modelled from the spec: the minimal order covering `size` bytes. -/
def get_order (size : Nat) : Nat := order_search size size 0

/-- `PageBox::<T>::try_new_uninit` for a type of `size` bytes, with the
allocator bound `maxOrder` standing for `MAX_ORDER` (orders below it are
supported) and `alloc` standing for `RawPageBox::new` = `allocate_pages`.
Returns the outcome (address and order on success) together with the
list of orders actually requested from the allocator.  The compile-time
`ALIGN_OK` / `SIZE_OK` asserts are modelled as hypotheses on the claim
theorems, since a violating type does not compile. -/
def try_new_uninit (size maxOrder : Nat) (alloc : Nat → Except SvsmError Nat) :
    Except SvsmError (Nat × Nat) × List Nat :=
  if maxOrder ≤ get_order size then
    (Except.error (SvsmError.Alloc AllocError.OutOfMemory), [])
  else
    match alloc (get_order size) with
    | Except.ok addr => (Except.ok (addr, get_order size), [get_order size])
    | Except.error e => (Except.error e, [get_order size])

/-! ## VMSA page (sev/vmsa.rs) -/

/-- `VMPL_MAX` from sev/vmsa.rs. -/
def VMPL_MAX : Nat := 4

/-- `Address::is_aligned` on virtual addresses. -/
def is_aligned (addr align : Nat) : Bool := addr % align == 0

/-- The RMP attribute passed to `rmp_adjust` (sev/utils.rs interface):
either tagging a page as the VMSA of a privilege level, or restoring it
to ordinary RWX memory for VMPL 0 (the drop path). -/
inductive RmpAttr
  | vmsaVmpl (vmpl : Nat)
  | rwxVmpl0
deriving DecidableEq

/-- Observable side effects of `VmsaPage::new` on the page it returns. -/
inductive VmsaEv
  | zeroFill (addr len : Nat)
  | rmpAdjust (addr : Nat) (attr : RmpAttr)
deriving DecidableEq

/-- Failure modes of `VmsaPage::new`: the `assert!` on the VMPL, an
allocation failure propagated by `?`, or an `rmp_adjust` failure
propagated by `?`. -/
inductive VmsaNewError
  | assertFailed
  | allocFailed
  | rmpAdjustFailed
deriving DecidableEq

/-- The allocation loop of `VmsaPage::new`: take a fresh page from the
allocator and, as long as it is 2 MiB aligned, allocate a replacement
(dropping the previous page); fail if the allocator stream runs out.
`allocs` models the successive addresses returned by
`RawPageBox::new(0)`. -/
def vmsa_alloc_loop : List Nat → Option Nat
  | [] => none
  | a :: rest => if is_aligned a PAGE_SIZE_2M then vmsa_alloc_loop rest else some a

/-- `VmsaPage::new(vmpl)`: assert the VMPL bound, run the allocation
loop until the page is not 2 MiB aligned, zero the `PAGE_SIZE` bytes of the page, and `rmp_adjust` it as `RMPFlags::VMSA | vmpl` — in that order,
before the page is handed to the caller.  `rmpOk` models whether the
external `rmp_adjust` call succeeds.  On success the result carries the
page address and the ordered list of effects performed on it. -/
def VmsaPage.new (vmpl : Nat) (allocs : List Nat) (rmpOk : Bool) :
    Except VmsaNewError (Nat × List VmsaEv) :=
  if VMPL_MAX ≤ vmpl then Except.error VmsaNewError.assertFailed
  else
    match vmsa_alloc_loop allocs with
    | none => Except.error VmsaNewError.allocFailed
    | some a =>
        if rmpOk then
          Except.ok (a, [VmsaEv.zeroFill a PAGE_SIZE,
                         VmsaEv.rmpAdjust a (RmpAttr.vmsaVmpl vmpl)])
        else Except.error VmsaNewError.rmpAdjustFailed

/-! ## Helper lemmas -/

/-- The mask assembled by the bitfield setters is bits 7 and 0. -/
theorem no_further_signal_mask_eq : no_further_signal_mask = 129 := by decide

set_option maxRecDepth 4096 in
/-- Bit arithmetic of the fetch-and on a byte, checked over all 256
byte values. -/
theorem and126_bits : ∀ g : Fin 256,
    Nat.testBit (g.val &&& 126) 7 = false ∧
    Nat.testBit (g.val &&& 126) 0 = false ∧
    (g.val &&& 126) &&& 126 = g.val &&& 126 ∧
    Nat.testBit (g.val &&& 126) 1 = Nat.testBit g.val 1 := by decide

/-- The borrow-counter invariant holds for a fresh cell. -/
theorem inv_init : Inv initState := Or.inl (by simp [initState, Inv])

/-- The borrow-counter invariant is preserved by every cell operation. -/
theorem inv_step (s : CellState) (op : Op) (h : Inv s) : Inv (step s op) := by
  obtain ⟨b, r, w⟩ := s
  simp only [Inv] at h
  cases op with
  | tryBorrow =>
      by_cases hb : b < 0
      · simpa only [step, try_borrow, if_pos hb, Inv] using h
      · simp only [step, try_borrow, if_neg hb, Inv]
        omega
  | tryBorrowMut =>
      by_cases hb : b ≠ 0
      · simpa only [step, try_borrow_mut, if_pos hb, Inv] using h
      · simp only [step, try_borrow_mut, if_neg hb, Inv]
        omega
  | dropRead =>
      by_cases hr : r = 0
      · simpa only [step, if_pos hr, Inv] using h
      · simp only [step, if_neg hr, drop_read, Inv]
        omega
  | dropWrite =>
      by_cases hw : w = 0
      · simpa only [step, if_pos hw, Inv] using h
      · simp only [step, if_neg hw, drop_write, Inv]
        omega
  | mapRead => simpa only [step, Inv] using h
  | mapWrite => simpa only [step, Inv] using h
  | filterMapRead => simpa only [step, Inv] using h
  | filterMapWrite => simpa only [step, Inv] using h
  | mapSplit =>
      by_cases hw : w = 0
      · simpa only [step, if_pos hw, Inv] using h
      · simp only [step, if_neg hw, map_split, Inv]
        omega

/-- The borrow-counter invariant holds after any operation sequence. -/
theorem inv_run (ops : List Op) : Inv (run ops) := by
  have main : ∀ l s, Inv s → Inv (List.foldl step s l) := by
    intro l
    induction l with
    | nil => intro s hs; exact hs
    | cons op l ih => intro s hs; exact ih _ (inv_step s op hs)
  exact main ops initState inv_init

/-- Split mutations never touch the borrow state. -/
theorem apply_split_writes_state (c : SplitCell) (ws : List SplitWrite) :
    (apply_split_writes c ws).state = c.state := by
  induction ws generalizing c with
  | nil => rfl
  | cons w ws ih =>
      have hstep : apply_split_writes c (w :: ws) =
          apply_split_writes (apply_split_write c w) ws := rfl
      rw [hstep, ih]
      cases w <;> rfl

/-- The final `bar` is the last value written through the `bar` handle. -/
theorem apply_split_writes_bar (c : SplitCell) (ws : List SplitWrite) :
    (apply_split_writes c ws).value.bar = last_bar c.value.bar ws := by
  induction ws generalizing c with
  | nil => rfl
  | cons w ws ih =>
      cases w with
      | writeBar v => exact ih { c with value := { c.value with bar := v } }
      | writeBaz v => exact ih { c with value := { c.value with baz := v } }

/-- The final `baz` is the last value written through the `baz` handle. -/
theorem apply_split_writes_baz (c : SplitCell) (ws : List SplitWrite) :
    (apply_split_writes c ws).value.baz = last_baz c.value.baz ws := by
  induction ws generalizing c with
  | nil => rfl
  | cons w ws ih =>
      cases w with
      | writeBar v => exact ih { c with value := { c.value with bar := v } }
      | writeBaz v => exact ih { c with value := { c.value with baz := v } }

/-- Discarding the `baz` writes does not change the final `bar`. -/
theorem last_bar_filter (b : Nat) (ws : List SplitWrite) :
    last_bar b (ws.filter SplitWrite.isBar) = last_bar b ws := by
  induction ws generalizing b with
  | nil => rfl
  | cons w ws ih =>
      cases w with
      | writeBar v => simp [List.filter_cons, SplitWrite.isBar, last_bar, ih]
      | writeBaz v => simp [List.filter_cons, SplitWrite.isBar, last_bar, ih]

/-- Discarding the `bar` writes does not change the final `baz`. -/
theorem last_baz_filter (z : Nat) (ws : List SplitWrite) :
    last_baz z (ws.filter SplitWrite.isBaz) = last_baz z ws := by
  induction ws generalizing z with
  | nil => rfl
  | cons w ws ih =>
      cases w with
      | writeBar v => simp [List.filter_cons, SplitWrite.isBaz, last_baz, ih]
      | writeBaz v => simp [List.filter_cons, SplitWrite.isBaz, last_baz, ih]

/-- If any byte of the requested region is not guest-owned, the slice
mapping fails with a memory error before any mapping is consulted. -/
theorem map_slice_invalid (guest_owned : Nat → Bool)
    (mi : Except SvsmError GuestMapping) (size paddr len i : Nat)
    (hi : i < len * size) (hbad : guest_owned (paddr + i) = false) :
    Mapping.map_slice guest_owned mi size paddr len =
      Except.error SvsmError.Mem := by
  have hval : valid_phys_region guest_owned paddr (len * size) = false := by
    rw [← Bool.not_eq_true, valid_phys_region, List.all_eq_true]
    intro hall
    have hone := hall i (List.mem_range.mpr hi)
    rw [hbad] at hone
    exact Bool.false_ne_true hone
  simp [Mapping.map_slice, check_region, hval]

/-- The allocation loop of `VmsaPage::new` only ever returns a page
that is not 2 MiB aligned. -/
theorem vmsa_alloc_loop_not_aligned (l : List Nat) (a : Nat)
    (h : vmsa_alloc_loop l = some a) : is_aligned a PAGE_SIZE_2M = false := by
  induction l with
  | nil => exact absurd h (by simp [vmsa_alloc_loop])
  | cons x l ih =>
      by_cases hx : is_aligned x PAGE_SIZE_2M = true
      · rw [vmsa_alloc_loop, if_pos hx] at h
        exact ih h
      · rw [vmsa_alloc_loop, if_neg hx] at h
        injection h with hxa
        subst hxa
        exact Bool.not_eq_true _ ▸ hx

/-- The bounded order search never overshoots its fuel. -/
theorem order_search_le (size : Nat) : ∀ fuel o, order_search size fuel o ≤ o + fuel := by
  intro fuel
  induction fuel with
  | zero => intro o; simp [order_search]
  | succ fuel ih =>
      intro o
      rw [order_search]
      split
      · omega
      · have hrec := ih (o + 1)
        omega

/-- If some order within the fuel budget covers the size, the order
found by the search covers it. -/
theorem order_search_covers (size : Nat) : ∀ fuel o,
    size ≤ PAGE_SIZE * 2 ^ (o + fuel) →
    size ≤ PAGE_SIZE * 2 ^ order_search size fuel o := by
  intro fuel
  induction fuel with
  | zero => intro o h; simpa [order_search] using h
  | succ fuel ih =>
      intro o h
      rw [order_search]
      split
      · assumption
      · apply ih (o + 1)
        have harith : o + 1 + fuel = o + (fuel + 1) := by omega
        rw [harith]
        exact h

/-- The search returns the least covering order at or above its start,
provided the fuel reaches it. -/
theorem order_search_min (size : Nat) : ∀ fuel o m,
    o ≤ m → m ≤ o + fuel → size ≤ PAGE_SIZE * 2 ^ m →
    order_search size fuel o ≤ m := by
  intro fuel
  induction fuel with
  | zero =>
      intro o m hom _ _
      simpa [order_search] using hom
  | succ fuel ih =>
      intro o m hom hmo hsz
      rw [order_search]
      split
      · exact hom
      · rename_i hnot
        have hne : o ≠ m := fun e => hnot (e ▸ hsz)
        exact ih (o + 1) m (by omega) (by omega) hsz

/-- `get_order` covers the requested size. -/
theorem get_order_covers (size : Nat) : size ≤ PAGE_SIZE * 2 ^ get_order size := by
  apply order_search_covers
  have h2 : size ≤ 2 ^ size := Nat.le_of_lt (Nat.lt_two_pow size)
  have hp : 2 ^ size ≤ PAGE_SIZE * 2 ^ (0 + size) := by
    rw [Nat.zero_add]
    exact Nat.le_mul_of_pos_left _ (by decide)
  omega

/-- `get_order` is minimal among covering orders. -/
theorem get_order_min (size m : Nat) (h : size ≤ PAGE_SIZE * 2 ^ m) :
    get_order size ≤ m := by
  rcases le_or_lt m size with hms | hsm
  · exact order_search_min size size 0 m (Nat.zero_le m) (by omega) h
  · have hle : get_order size ≤ 0 + size := order_search_le size size 0
    omega

/-- A nonzero-vector prefix followed by a zero is drained exactly. -/
theorem drain_vectors_append (vs rest : List Nat) (h : ∀ v ∈ vs, v ≠ 0) :
    drain_vectors (vs ++ 0 :: rest) = vs := by
  induction vs with
  | nil => simp [drain_vectors]
  | cons v vs ih =>
      have hv : v ≠ 0 := h v (List.mem_cons_self v vs)
      have ih2 := ih fun w hw => h w (List.mem_cons_of_mem v hw)
      simp only [List.cons_append, drain_vectors]
      rw [if_neg hv]
      exact congrArg (List.cons v) ih2

/-! ## Claim theorems -/

/-- Claim C1, counterexample: the fetch-and in `process_pending_events`
does not clear the machine-check pending flag (pre-value 2: the flag
stays set), and it does not leave the NMI flag unchanged (pre-value 1:
the NMI flag is cleared), so the claim as stated is false. -/
theorem C1_counterexample :
    ¬ (HVDoorbellFlags.mc_pending (flags_fetch_and 2) = false ∧
       HVDoorbellFlags.nmi_pending (flags_fetch_and 1) =
         HVDoorbellFlags.nmi_pending 1) := by
  decide

/-- Claim C1 (amended): the single fetch-and on the doorbell flags byte
clears exactly the no-further-signal flag (bit 7) and the NMI-pending
flag (bit 0), leaving every other bit — in particular the machine-check
pending flag — unchanged; and the call panics exactly when the
machine-check flag was set in the pre-fetch-and value, before any
further processing. -/
theorem C1_fetch_and_clears_nfs_and_nmi (flags : Nat) (swaps : List Nat) :
    HVDoorbellFlags.no_further_signal (flags_fetch_and flags) = false ∧
    HVDoorbellFlags.nmi_pending (flags_fetch_and flags) = false ∧
    flags_fetch_and flags &&& 126 = (flags % 256) &&& 126 ∧
    HVDoorbellFlags.mc_pending (flags_fetch_and flags) =
      HVDoorbellFlags.mc_pending (flags % 256) ∧
    (process_pending_events flags swaps = Except.error () ↔
      HVDoorbellFlags.mc_pending (flags % 256) = true) := by
  have hg : flags % 256 < 256 := Nat.mod_lt _ (by norm_num)
  have hb := and126_bits ⟨flags % 256, hg⟩
  have hm : no_further_signal_mask ^^^ 255 = 126 := by decide
  have hf : flags_fetch_and flags = (flags % 256) &&& 126 := by
    rw [flags_fetch_and, hm]
  refine ⟨?_, ?_, ?_, ?_, ?_⟩
  · rw [HVDoorbellFlags.no_further_signal, hf]; exact hb.1
  · rw [HVDoorbellFlags.nmi_pending, hf]; exact hb.2.1
  · rw [hf]; exact hb.2.2.1
  · rw [HVDoorbellFlags.mc_pending, HVDoorbellFlags.mc_pending, hf]
    exact hb.2.2.2
  · by_cases hmc : HVDoorbellFlags.mc_pending (flags % 256) = true
    · simp [process_pending_events, hmc]
    · simp [process_pending_events, hmc]

/-- Claim C5: if the pending-vector field yields the nonzero values `vs`
followed by a zero across successive swaps, `process_pending_events`
dispatches exactly `vs`, in order, and terminates; and if the
machine-check flag was set in the flags fetched at entry, the call
panics without reaching the drain loop, whatever the vector field
holds. -/
theorem C5_drain_dispatch (flags : Nat) (vs rest swaps : List Nat)
    (hvs : ∀ v ∈ vs, v ≠ 0) :
    (HVDoorbellFlags.mc_pending (flags % 256) = false →
      process_pending_events flags (vs ++ 0 :: rest) =
        Except.ok (flags_fetch_and flags, vs)) ∧
    (HVDoorbellFlags.mc_pending (flags % 256) = true →
      process_pending_events flags swaps = Except.error ()) := by
  constructor
  · intro hmc
    simp [process_pending_events, hmc, drain_vectors_append vs rest hvs]
  · intro hmc
    simp [process_pending_events, hmc]

/-- Witness for C5: with a clear flags byte, vectors 3 and 5 followed by
a zero are dispatched in order; with the machine-check flag set, the
call panics. -/
theorem C5_witness :
    process_pending_events 0 ([3, 5] ++ 0 :: [7]) =
      Except.ok (flags_fetch_and 0, [3, 5]) ∧
    process_pending_events 2 [9] = Except.error () := by
  constructor
  · exact (C5_drain_dispatch 0 [3, 5] [7] [9] (by decide)).1 (by decide)
  · exact (C5_drain_dispatch 2 [3, 5] [7] [9] (by decide)).2 (by decide)

/-- Claim C3: after every sequence of cell operations, the borrow
counter is positive exactly when read handles are live and no write
handle is, negative exactly when write handles are live (splits
included) and no read handle is, and zero exactly when no handle is
live — so once all borrows are dropped the counter is exactly zero. -/
theorem C3_sign_invariant (ops : List Op) :
    (0 < (run ops).borrow ↔ 0 < (run ops).reads ∧ (run ops).writes = 0) ∧
    ((run ops).borrow < 0 ↔ 0 < (run ops).writes ∧ (run ops).reads = 0) ∧
    ((run ops).borrow = 0 ↔ (run ops).reads = 0 ∧ (run ops).writes = 0) := by
  have h := inv_run ops
  simp only [Inv] at h
  omega

/-- Claim C4: in any reachable cell state, a read borrow attempted while
a write handle is live fails with the reentrant-read error and a write
borrow attempted while any handle is live fails with the
reentrant-write error; both fail immediately and leave the state (in
particular the counter) unchanged. -/
theorem C4_fail_fast (ops : List Op) :
    (0 < (run ops).writes →
      try_borrow (run ops) =
        Except.error (SvsmError.Reentrancy ReentrancyError.ReentrantRead) ∧
      step (run ops) Op.tryBorrow = run ops) ∧
    (0 < (run ops).reads ∨ 0 < (run ops).writes →
      try_borrow_mut (run ops) =
        Except.error (SvsmError.Reentrancy ReentrancyError.ReentrantWrite) ∧
      step (run ops) Op.tryBorrowMut = run ops) := by
  have h := inv_run ops
  simp only [Inv] at h
  constructor
  · intro hw
    have hb : (run ops).borrow < 0 := by omega
    exact ⟨by simp [try_borrow, hb], by simp [step, try_borrow, hb]⟩
  · intro hrw
    have hb : (run ops).borrow ≠ 0 := by omega
    exact ⟨by simp [try_borrow_mut, hb], by simp [step, try_borrow_mut, hb]⟩

/-- Witness for C4: a read borrow fails (and changes nothing) while a
write handle is live, and a write borrow fails (and changes nothing)
while a read handle is live. -/
theorem C4_witness :
    (try_borrow (run [Op.tryBorrowMut]) =
       Except.error (SvsmError.Reentrancy ReentrancyError.ReentrantRead) ∧
     step (run [Op.tryBorrowMut]) Op.tryBorrow = run [Op.tryBorrowMut]) ∧
    (try_borrow_mut (run [Op.tryBorrow]) =
       Except.error (SvsmError.Reentrancy ReentrancyError.ReentrantWrite) ∧
     step (run [Op.tryBorrow]) Op.tryBorrowMut = run [Op.tryBorrow]) :=
  ⟨(C4_fail_fast [Op.tryBorrowMut]).1 (by decide),
   (C4_fail_fast [Op.tryBorrow]).2 (Or.inl (by decide))⟩

/-- Claim C7: after a write borrow is split over the two fields of a
pair, any interleaving of writes through the two handles leaves `bar`
determined solely by the `bar`-handle writes and `baz` solely by the
`baz`-handle writes (the mutations do not interfere), the writes never
touch the borrow counter, and the cell rejects every new read or write
borrow after the split and still after one split handle is dropped,
becoming borrowable again only once both are dropped. -/
theorem C7_map_split_independence (p : Pair) (ws : List SplitWrite) :
    (apply_split_writes { value := p, state := run [Op.tryBorrowMut, Op.mapSplit] } ws).value.bar =
      (apply_split_writes { value := p, state := run [Op.tryBorrowMut, Op.mapSplit] }
        (ws.filter SplitWrite.isBar)).value.bar ∧
    (apply_split_writes { value := p, state := run [Op.tryBorrowMut, Op.mapSplit] } ws).value.baz =
      (apply_split_writes { value := p, state := run [Op.tryBorrowMut, Op.mapSplit] }
        (ws.filter SplitWrite.isBaz)).value.baz ∧
    (apply_split_writes { value := p, state := run [Op.tryBorrowMut, Op.mapSplit] } ws).state =
      run [Op.tryBorrowMut, Op.mapSplit] ∧
    try_borrow (run [Op.tryBorrowMut, Op.mapSplit]) =
      Except.error (SvsmError.Reentrancy ReentrancyError.ReentrantRead) ∧
    try_borrow_mut (run [Op.tryBorrowMut, Op.mapSplit]) =
      Except.error (SvsmError.Reentrancy ReentrancyError.ReentrantWrite) ∧
    try_borrow (run [Op.tryBorrowMut, Op.mapSplit, Op.dropWrite]) =
      Except.error (SvsmError.Reentrancy ReentrancyError.ReentrantRead) ∧
    try_borrow_mut (run [Op.tryBorrowMut, Op.mapSplit, Op.dropWrite]) =
      Except.error (SvsmError.Reentrancy ReentrancyError.ReentrantWrite) ∧
    try_borrow (run [Op.tryBorrowMut, Op.mapSplit, Op.dropWrite, Op.dropWrite]) =
      Except.ok { borrow := 1, reads := 1, writes := 0 } := by
  refine ⟨?_, ?_, apply_split_writes_state _ _, rfl, rfl, rfl, rfl, rfl⟩
  · rw [apply_split_writes_bar, apply_split_writes_bar, last_bar_filter]
  · rw [apply_split_writes_baz, apply_split_writes_baz, last_baz_filter]

/-- Claim C10: the panicking convenience operations panic exactly where
their `try_` counterparts would return a reentrancy error: `borrow` and
`borrow_mut` panic on any failed attempt, `get` panics while a write
handle is live, and `replace` — which takes a write borrow internally —
panics while any handle at all is live. -/
theorem C10_panicking_api {α : Type} (ops : List Op) (v x : α)
    (e e2 : SvsmError) :
    (try_borrow (run ops) = Except.error e →
      borrow (run ops) = PanicOr.panicked) ∧
    (try_borrow_mut (run ops) = Except.error e2 →
      borrow_mut (run ops) = PanicOr.panicked) ∧
    (0 < (run ops).writes →
      get { state := run ops, val := v } = PanicOr.panicked) ∧
    (0 < (run ops).reads ∨ 0 < (run ops).writes →
      replace { state := run ops, val := v } x = PanicOr.panicked) := by
  have h := inv_run ops
  simp only [Inv] at h
  refine ⟨?_, ?_, ?_, ?_⟩
  · intro he; simp [borrow, he]
  · intro he; simp [borrow_mut, he]
  · intro hw
    have hb : (run ops).borrow < 0 := by omega
    simp [get, try_borrow, hb]
  · intro hrw
    have hb : (run ops).borrow ≠ 0 := by omega
    simp [replace, try_borrow_mut, hb]

/-- Witness for C10: each panicking operation panics at a concrete
conflicting state. -/
theorem C10_witness :
    borrow (run [Op.tryBorrowMut]) = PanicOr.panicked ∧
    borrow_mut (run [Op.tryBorrow]) = PanicOr.panicked ∧
    get { state := run [Op.tryBorrowMut], val := (0 : Nat) } = PanicOr.panicked ∧
    replace { state := run [Op.tryBorrow], val := (0 : Nat) } 1 = PanicOr.panicked := by
  refine ⟨?_, ?_, ?_, ?_⟩
  · exact (C10_panicking_api [Op.tryBorrowMut] (0 : Nat) 1
      (SvsmError.Reentrancy ReentrancyError.ReentrantRead)
      (SvsmError.Reentrancy ReentrancyError.ReentrantWrite)).1 rfl
  · exact (C10_panicking_api [Op.tryBorrow] (0 : Nat) 1
      (SvsmError.Reentrancy ReentrancyError.ReentrantRead)
      (SvsmError.Reentrancy ReentrancyError.ReentrantWrite)).2.1 rfl
  · exact (C10_panicking_api [Op.tryBorrowMut] (0 : Nat) 1
      (SvsmError.Reentrancy ReentrancyError.ReentrantRead)
      (SvsmError.Reentrancy ReentrancyError.ReentrantWrite)).2.2.1 (by decide)
  · exact (C10_panicking_api [Op.tryBorrow] (0 : Nat) 1
      (SvsmError.Reentrancy ReentrancyError.ReentrantRead)
      (SvsmError.Reentrancy ReentrancyError.ReentrantWrite)).2.2.2
      (Or.inl (by decide))

/-- Claim C2: both guest mapping variants run the region-validity check
over the whole byte range before any mapping is established, and reject
the request with a memory error — whatever the mapping machinery would
have produced — as soon as any byte of the range is outside guest-owned
memory; in particular a range straddling guest-owned and non-guest-owned
memory is rejected in its entirety. -/
theorem C2_whole_range_check (guest_owned : Nat → Bool)
    (mi mi1 : Except SvsmError GuestMapping) (size paddr len : Nat) :
    ((∃ i, i < len * size ∧ guest_owned (paddr + i) = false) →
      Mapping.map_slice guest_owned mi size paddr len =
        Except.error SvsmError.Mem) ∧
    ((∃ i, i < size ∧ guest_owned (paddr + i) = false) →
      Mapping.map guest_owned mi1 size paddr = Except.error SvsmError.Mem) := by
  constructor
  · rintro ⟨i, hi, hbad⟩
    exact map_slice_invalid guest_owned mi size paddr len i hi hbad
  · rintro ⟨i, hi, hbad⟩
    exact map_slice_invalid guest_owned mi1 size paddr 1 i (by omega) hbad

/-- Witness for C2: with guest-owned memory ending at byte 8192, a
two-element mapping of 4-byte elements at 8188 straddles the boundary
and is rejected whole, as is a single element at 8190, even though the
mapping machinery stood ready to succeed. -/
theorem C2_witness :
    Mapping.map_slice (fun a => decide (a < 8192))
      (Except.ok { paddr := 8188, len := 2 }) 4 8188 2 =
      Except.error SvsmError.Mem ∧
    Mapping.map (fun a => decide (a < 8192))
      (Except.ok { paddr := 8190, len := 1 }) 4 8190 =
      Except.error SvsmError.Mem := by
  constructor
  · exact (C2_whole_range_check (fun a => decide (a < 8192))
      (Except.ok { paddr := 8188, len := 2 }) (Except.ok { paddr := 8188, len := 2 })
      4 8188 2).1 ⟨6, by decide, by decide⟩
  · exact (C2_whole_range_check (fun a => decide (a < 8192))
      (Except.ok { paddr := 8190, len := 1 }) (Except.ok { paddr := 8190, len := 1 })
      4 8190 2).2 ⟨3, by decide, by decide⟩

/-- Claim C6: whenever `VmsaPage::new(vmpl)` succeeds, the returned page
is not 2 MiB aligned (the loop reallocates until that holds), and the
effects performed on it before it reaches the caller are exactly the
zero-fill of its `PAGE_SIZE` bytes followed by the RMP adjust tagging it
as the VMSA of the requested privilege level. -/
theorem C6_vmsa_new (vmpl : Nat) (allocs : List Nat) (rmpOk : Bool)
    (a : Nat) (evs : List VmsaEv)
    (h : VmsaPage.new vmpl allocs rmpOk = Except.ok (a, evs)) :
    is_aligned a PAGE_SIZE_2M = false ∧
    evs = [VmsaEv.zeroFill a PAGE_SIZE,
           VmsaEv.rmpAdjust a (RmpAttr.vmsaVmpl vmpl)] := by
  rw [VmsaPage.new] at h
  split at h
  · exact absurd h (by simp)
  · split at h
    · exact absurd h (by simp)
    · rename_i a2 heq
      split at h
      · simp only [Except.ok.injEq, Prod.mk.injEq] at h
        obtain ⟨rfl, rfl⟩ := h
        exact ⟨vmsa_alloc_loop_not_aligned allocs a2 heq, rfl⟩
      · exact absurd h (by simp)

/-- Witness for C6: with the allocator first handing out the 2 MiB
aligned page 0x200000 and then the unaligned page 0x1000, `new` returns
the unaligned page, zeroed then RMP-tagged. -/
theorem C6_witness :
    is_aligned 4096 PAGE_SIZE_2M = false ∧
    [VmsaEv.zeroFill 4096 PAGE_SIZE, VmsaEv.rmpAdjust 4096 (RmpAttr.vmsaVmpl 1)] =
      [VmsaEv.zeroFill 4096 PAGE_SIZE,
       VmsaEv.rmpAdjust 4096 (RmpAttr.vmsaVmpl 1)] :=
  C6_vmsa_new 1 [2097152, 4096] true 4096
    [VmsaEv.zeroFill 4096 PAGE_SIZE, VmsaEv.rmpAdjust 4096 (RmpAttr.vmsaVmpl 1)]
    rfl

/-- Claim C8: for a type of nonzero size and alignment at most a page,
`try_new_uninit` computes the minimal order covering the size, and it
fails with an out-of-memory allocation error without consulting the
allocator exactly when that order reaches the allocator bound
`MAX_ORDER` (supported orders lie strictly below it). -/
theorem C8_minimal_order_oom (size align maxOrder o : Nat)
    (alloc : Nat → Except SvsmError Nat)
    (_hsize : 0 < size) (_halign : align ≤ PAGE_SIZE) :
    size ≤ PAGE_SIZE * 2 ^ get_order size ∧
    (size ≤ PAGE_SIZE * 2 ^ o → get_order size ≤ o) ∧
    (try_new_uninit size maxOrder alloc =
        (Except.error (SvsmError.Alloc AllocError.OutOfMemory), []) ↔
      maxOrder ≤ get_order size) := by
  refine ⟨get_order_covers size, get_order_min size o, ?_, ?_⟩
  · intro h
    by_contra hmax
    rw [try_new_uninit, if_neg hmax] at h
    split at h <;> simp at h
  · intro h
    rw [try_new_uninit, if_pos h]

/-- Witness for C8: a 12 KiB type needs order 2 (16 KiB), which is
minimal, and with `MAX_ORDER = 2` the request fails out-of-memory with
no allocator call. -/
theorem C8_witness :
    12288 ≤ PAGE_SIZE * 2 ^ get_order 12288 ∧
    get_order 12288 ≤ 2 ∧
    (try_new_uninit 12288 2 (fun _ => Except.ok 4096) =
        (Except.error (SvsmError.Alloc AllocError.OutOfMemory), []) ↔
      2 ≤ get_order 12288) := by
  have h := C8_minimal_order_oom 12288 8 2 2 (fun _ => Except.ok 4096)
    (by decide) (by decide)
  exact ⟨h.1, h.2.1 (by decide), h.2.2⟩

/-- Claim C9: `Guest::write_bytes` is an unsupported operation — for
every destination, length, fill byte and guest memory it panics,
returning neither success nor an updated memory. -/
theorem C9_write_bytes_unsupported (mem : Nat → Nat) (dst count val : Nat) :
    Guest.write_bytes mem dst count val = PanicOr.panicked := rfl

end Svsm
